import Mathlib

/-!
Shallow embedding of the auth core of the `coulterac/go-api` repository:
the token `Granter` (vendor/github.com/RedVentures/sdk-go/auth/granter.go)
and the JWT `Verifier` (the auth package verifier file).  Network I/O is
modelled by an oracle value describing the single HTTP exchange a cache
miss performs; cryptographic certificate parsing and signature checking
are modelled by oracle functions.  Time is the Unix-seconds clock passed
explicitly (the Go `time.Now().Unix()`), an `Int` like the Go `int64`.
-/

namespace Auth

/-- Events observable from outside a `GetToken` / key-resolution call:
a token-cache read, a run of the coalesced producer closure, and an
outbound HTTP call. -/
inductive Event where
  | cacheRead
  | producerRun
  | httpCall
deriving DecidableEq, Repr

/-- Translation of `cachedToken` from granter.go: the stored JWT and its (already
margin-adjusted) expiration in Unix seconds. -/
structure CachedToken where
  jwt : String
  expiration : Int
deriving DecidableEq, Repr

/-- Token cache of the Granter: `none` models the Go nil map, `some l`
an allocated map with association list `l` (unique keys maintained by
`cacheInsert`). -/
abbrev TokenCache := Option (List (String × CachedToken))

/-- Map lookup, treating the nil map as empty (granter.go checks
`g.cache == nil` before indexing). -/
def cacheLookup (c : TokenCache) (k : String) : Option CachedToken :=
  match c with
  | none => none
  | some l => (l.find? (fun p => p.1 == k)).map (·.2)

/-- Map overwrite `g.cache[resource] = v`, allocating the backing map on
first write (`if g.cache == nil { g.cache = make(...) }`). -/
def cacheInsert (c : TokenCache) (k : String) (v : CachedToken) : TokenCache :=
  some ((k, v) :: (c.getD []).filter (fun p => p.1 != k))

/-- The public configuration fields of `Granter`. -/
structure Granter where
  clientID : String
  clientSecret : String
  tenantURL : String
  expirationMargin : Int
deriving Repr

/-- Translation of `Granter.readToken`: returns the cached JWT if the key is present
and `tc.expiration >= time.Now().Unix()`. -/
def readToken (c : TokenCache) (resource : String) (now : Int) : Option String :=
  match cacheLookup c resource with
  | none => none
  | some tc => if tc.expiration ≥ now then some tc.jwt else none

/-- Translation of `Granter.writeToken`: stores the token with the expiration adjusted
by the margin (`expiration - g.ExpirationMargin`). -/
def writeToken (g : Granter) (c : TokenCache) (resource jwt : String)
    (expiration : Int) : TokenCache :=
  cacheInsert c resource ⟨jwt, expiration - g.expirationMargin⟩

/-- The decoded token-endpoint success body
`{access_token, token_type, expires_in}`. -/
structure AccessTokenResponse where
  access_token : String
  token_type : String
  expires_in : Int
deriving DecidableEq, Repr

/-- Oracle describing the HTTP exchange the producer performs:
a transport-level failure, or a response with a status code and a body
(`none` models a body `json.Decode` rejects). -/
inductive TokenHttpResult where
  | transportError
  | response (statusCode : Int) (body : Option AccessTokenResponse)
deriving DecidableEq, Repr

/-- The errors `GetToken` can surface, with the Go message each one is
built from. -/
inductive GranterError where
  | resourceEmpty
  | credsEmpty
  | tenantURLEmpty
  | transport
  | status (code : Int)
  | decode
deriving DecidableEq, Repr

/-- The message text of each `GranterError` as granter.go formats it
(wrapping prefixes included). -/
def GranterError.message : GranterError → String
  | .resourceEmpty => "resource cannot be empty"
  | .credsEmpty => "ClientID and ClientSecret cannot be empty"
  | .tenantURLEmpty => "TenantURL cannot be empty"
  | .transport => "unable to fetch token"
  | .status code => "unable to fetch token: received " ++ toString code ++ " status code"
  | .decode => "bad Access Token Response"

/-- The status-code acceptance test shared by granter.go line 112 and the
JWKS fetch of the verifier: a response errors iff
`StatusCode < http.StatusOK || StatusCode >= http.StatusBadRequest`. -/
def statusRejected (code : Int) : Bool :=
  code < 200 || code ≥ 400

/-- Translation of `Granter.GetToken`, sequential semantics of one call: the empty-resource
guard, the cache read, then the coalesced producer (configuration checks,
the POST to the token endpoint via the `net` oracle, status check, body
decode, cache write).  Returns the result, the resulting cache, and the
trace of observable events. -/
def getToken (g : Granter) (c : TokenCache) (now : Int) (net : TokenHttpResult)
    (resource : String) : Except GranterError String × TokenCache × List Event :=
  if resource == "" then
    (.error .resourceEmpty, c, [])
  else
    match readToken c resource now with
    | some jwt => (.ok jwt, c, [.cacheRead])
    | none =>
      if g.clientID == "" || g.clientSecret == "" then
        (.error .credsEmpty, c, [.cacheRead, .producerRun])
      else if g.tenantURL == "" then
        (.error .tenantURLEmpty, c, [.cacheRead, .producerRun])
      else
        match net with
        | .transportError =>
          (.error .transport, c, [.cacheRead, .producerRun, .httpCall])
        | .response code body =>
          if statusRejected code then
            (.error (.status code), c, [.cacheRead, .producerRun, .httpCall])
          else
            match body with
            | none => (.error .decode, c, [.cacheRead, .producerRun, .httpCall])
            | some r =>
              let expiresOn := now + r.expires_in
              (.ok r.access_token, writeToken g c resource r.access_token expiresOn,
                [.cacheRead, .producerRun, .httpCall])

/-! ### Verifier -/

/-- An RSA public key is opaque to the claims checked here; only identity
matters, so it is modelled by a tag. -/
structure RsaPublicKey where
  id : Nat
deriving DecidableEq, Repr

/-- Translation of `keyCache` from the verifier: a public key plus its (margin-adjusted)
expiration in Unix seconds. -/
structure KeyCacheEntry where
  key : RsaPublicKey
  expiration : Int
deriving DecidableEq, Repr

/-- Key cache of the Verifier; `none` models the Go nil map. -/
abbrev KeyCache := Option (List (String × KeyCacheEntry))

/-- Map lookup on the key cache, treating the nil map as empty. -/
def keyCacheLookup (c : KeyCache) (k : String) : Option KeyCacheEntry :=
  match c with
  | none => none
  | some l => (l.find? (fun p => p.1 == k)).map (·.2)

/-- Map overwrite on the key cache, allocating on first write. -/
def keyCacheInsert (c : KeyCache) (k : String) (v : KeyCacheEntry) : KeyCache :=
  some ((k, v) :: (c.getD []).filter (fun p => p.1 != k))

/-- The public configuration fields of `Verifier`. -/
structure Verifier where
  resource : String
  tenantURL : String
  expirationMargin : Int
deriving Repr

/-- Translation of `Verifier.readPublicKey`: returns the cached key if present and
`cache.expiration > time.Now().Unix()` (note: strict, unlike the
Granter, which uses `>=`). -/
def readPublicKey (c : KeyCache) (kid : String) (now : Int) : Option RsaPublicKey :=
  match keyCacheLookup c kid with
  | none => none
  | some e => if e.expiration > now then some e.key else none

/-- Translation of `Verifier.writePublicKey`: caches a key for a fixed 24 hours
(`time.Now().Unix() + 86400 - v.ExpirationMargin`). -/
def writePublicKey (v : Verifier) (c : KeyCache) (kid : String)
    (pk : RsaPublicKey) (now : Int) : KeyCache :=
  keyCacheInsert c kid ⟨pk, now + 86400 - v.expirationMargin⟩

/-- One entry of the JWKS response body: `{kid, x5c}`. -/
structure JwksKey where
  kid : String
  x5c : List String
deriving DecidableEq, Repr

/-- Oracle for the GET of `/.well-known/jwks.json`: transport failure, or
a response with a status code and a decoded body (`none` = malformed
JSON). -/
inductive JwksHttpResult where
  | transportError
  | response (statusCode : Int) (body : Option (List JwksKey))
deriving DecidableEq, Repr

/-- Errors of the key-resolution path (`Verifier.getKey`). -/
inductive KeyError where
  | transport
  | status (code : Int)
  | decode
  | missingCertChain
  | certParse
  | noKeyForKid (kid : String)
deriving DecidableEq, Repr

/-- The message text of each `KeyError` as the Go code formats it. -/
def KeyError.message : KeyError → String
  | .transport => "error fetching keys from Auth0"
  | .status code => "error fetching keys from Auth0: received " ++ toString code ++ " status code"
  | .decode => "json decode error"
  | .missingCertChain => "missing certificate chain"
  | .certParse => "unable to parse public key"
  | .noKeyForKid kid => "no key for kid: " ++ kid

/-- PEM framing applied to the first certificate of the chain. -/
def pemWrap (certString : String) : String :=
  "-----BEGIN CERTIFICATE-----\n" ++ certString ++ "\n-----END CERTIFICATE-----"

/-- The scan over `body.Keys` in `getKey`: the first entry whose `kid`
matches decides the outcome — empty `x5c` is an error, otherwise the
first certificate is PEM-wrapped and parsed (via the `parseCert` oracle
standing for `jwt.ParseRSAPublicKeyFromPEM`); no matching entry at all
names the kid in the error. -/
def resolveFromKeys (kid : String) (parseCert : String → Option RsaPublicKey) :
    List JwksKey → Except KeyError RsaPublicKey
  | [] => .error (.noKeyForKid kid)
  | key :: rest =>
    if key.kid == kid then
      match key.x5c with
      | [] => .error .missingCertChain
      | certString :: _ =>
        match parseCert (pemWrap certString) with
        | none => .error .certParse
        | some pk => .ok pk
    else resolveFromKeys kid parseCert rest

/-- Events observable from a `VerifyToken` call, in particular whether
and when the key cache and the JWKS endpoint are consulted and when the
signature is checked. -/
inductive VEvent where
  | audienceCheck
  | issuerCheck
  | kidCheck
  | keyCacheRead
  | jwksCall
  | signatureCheck
deriving DecidableEq, Repr

/-- Translation of `Verifier.getKey`: cache read, then the coalesced JWKS fetch
(status check, decode, scan, cache write on success). -/
def getKey (v : Verifier) (c : KeyCache) (now : Int) (net : JwksHttpResult)
    (parseCert : String → Option RsaPublicKey) (kid : String) :
    Except KeyError RsaPublicKey × KeyCache × List VEvent :=
  match readPublicKey c kid now with
  | some pk => (.ok pk, c, [.keyCacheRead])
  | none =>
    match net with
    | .transportError => (.error .transport, c, [.keyCacheRead, .jwksCall])
    | .response code body =>
      if statusRejected code then
        (.error (.status code), c, [.keyCacheRead, .jwksCall])
      else
        match body with
        | none => (.error .decode, c, [.keyCacheRead, .jwksCall])
        | some keys =>
          match resolveFromKeys kid parseCert keys with
          | .error e => (.error e, c, [.keyCacheRead, .jwksCall])
          | .ok pk => (.ok pk, writePublicKey v c kid pk now, [.keyCacheRead, .jwksCall])

/-- Errors surfaced by `VerifyToken` through its key function. -/
inductive VerifierError where
  | claimsParse
  | missingAudience (resource : String)
  | issuerMismatch (actual expected : String)
  | kidMissing
  | keyResolution (inner : KeyError)
  | badSignature
  | malformedToken
deriving DecidableEq, Repr

/-- The message of each claim-policy error as the verifier formats it;
in particular the issuer mismatch names both the actual and the expected
issuer. -/
def VerifierError.message : VerifierError → String
  | .claimsParse => "unable to parse claims"
  | .missingAudience resource => "bad token: missing '" ++ resource ++ "' audience"
  | .issuerMismatch actual expected =>
      "bad token: issuer is '" ++ actual ++ "' when it should be '" ++ expected ++ "'"
  | .kidMissing => "unable to get kid header from token"
  | .keyResolution inner => "unable to get public key: " ++ inner.message
  | .badSignature => "signature is invalid"
  | .malformedToken => "token contains an invalid number of segments"

/-- Translation of `Verifier.verifyAudience`: scan the audiences for `v.Resource`. -/
def verifyAudience (v : Verifier) (audiences : List String) : Option VerifierError :=
  if audiences.any (· == v.resource) then none
  else some (.missingAudience v.resource)

/-- Go `strings.TrimRight(s, "/")`: drop every trailing slash. -/
def trimTrailingSlashes (s : String) : String :=
  ⟨(s.data.reverse.dropWhile (· == '/')).reverse⟩

/-- The issuer the verifier expects: the tenant URL with trailing slashes
stripped and exactly one appended. -/
def expectedIssuer (tenantURL : String) : String :=
  trimTrailingSlashes tenantURL ++ "/"

/-- The issuer test of `keyFunc`: fails (returning the mismatch error
carrying both values) when `claims.Issuer == "" || claims.Issuer != issuer`. -/
def issuerCheck (tenantURL issuer : String) : Option VerifierError :=
  let expected := expectedIssuer tenantURL
  if issuer == "" || issuer != expected then
    some (.issuerMismatch issuer expected)
  else none

/-- The decoded JOSE header; `kid` is `some` exactly when
`token.Header["kid"].(string)` succeeds. -/
structure ParsedHeader where
  kid : Option String
deriving DecidableEq, Repr

/-- The typed claims the key function inspects. -/
structure ParsedClaims where
  scope : String
  audience : List String
  issuer : String
deriving DecidableEq, Repr

/-- A structurally parsed JWT, as handed to the key function by
`jwt.ParseWithClaims` before signature verification. -/
structure ParsedJwt where
  raw : String
  header : ParsedHeader
  claims : ParsedClaims
deriving DecidableEq, Repr

/-- Translation of `Verifier.keyFunc`: audience check, issuer check, kid presence, then
key resolution — in that order, each failure short-circuiting. -/
def keyFunc (v : Verifier) (c : KeyCache) (now : Int) (net : JwksHttpResult)
    (parseCert : String → Option RsaPublicKey) (header : ParsedHeader)
    (claims : ParsedClaims) :
    Except VerifierError RsaPublicKey × KeyCache × List VEvent :=
  match verifyAudience v claims.audience with
  | some e => (.error e, c, [.audienceCheck])
  | none =>
    match issuerCheck v.tenantURL claims.issuer with
    | some e => (.error e, c, [.audienceCheck, .issuerCheck])
    | none =>
      match header.kid with
      | none => (.error .kidMissing, c, [.audienceCheck, .issuerCheck, .kidCheck])
      | some kid =>
        match getKey v c now net parseCert kid with
        | (.error e, c2, evs) =>
          (.error (.keyResolution e), c2, [.audienceCheck, .issuerCheck, .kidCheck] ++ evs)
        | (.ok pk, c2, evs) =>
          (.ok pk, c2, [.audienceCheck, .issuerCheck, .kidCheck] ++ evs)

/-- The `Token` value `VerifyToken` returns on success. -/
structure Token where
  raw : String
  claims : ParsedClaims
deriving DecidableEq, Repr

/-- Translation of `Verifier.VerifyToken`: structural parse (`none` input models a
malformed compact serialization), the key function, and only then the
signature check with the resolved key (the `sigValid` oracle stands for
the cryptographic verification done by the library). -/
def verifyToken (v : Verifier) (c : KeyCache) (now : Int) (net : JwksHttpResult)
    (parseCert : String → Option RsaPublicKey)
    (sigValid : ParsedJwt → RsaPublicKey → Bool) (input : Option ParsedJwt) :
    Except VerifierError Token × KeyCache × List VEvent :=
  match input with
  | none => (.error .malformedToken, c, [])
  | some tok =>
    match keyFunc v c now net parseCert tok.header tok.claims with
    | (.error e, c2, evs) => (.error e, c2, evs)
    | (.ok pk, c2, evs) =>
      if sigValid tok pk then
        (.ok ⟨tok.raw, tok.claims⟩, c2, evs ++ [.signatureCheck])
      else
        (.error .badSignature, c2, evs ++ [.signatureCheck])

/-! ### AudienceList JSON encoding -/

/-- JSON values, at the granularity the `aud` claim needs. -/
inductive Json where
  | null
  | bool (b : Bool)
  | num (n : Int)
  | str (s : String)
  | arr (xs : List Json)

/-- Translation of `AudienceList.MarshalJSON`: a one-element list marshals its single
element as a bare string; otherwise the whole slice marshals as an
array. -/
def marshalAudienceList : List String → Json
  | [a] => .str a
  | al => .arr (al.map .str)

/-- Behavior of `json.Unmarshal` into a Go `string`: succeeds on a JSON string, and
on JSON null as a no-op leaving the zero value `""`. -/
def unmarshalGoString : Json → Option String
  | .str s => some s
  | .null => some ""
  | _ => none

/-- Element-wise decoding of a JSON array into Go strings; any
non-string, non-null element fails the whole decode. -/
def unmarshalGoStrings : List Json → Option (List String)
  | [] => some []
  | j :: rest =>
    match unmarshalGoString j with
    | none => none
    | some s =>
      match unmarshalGoStrings rest with
      | none => none
      | some l => some (s :: l)

/-- Behavior of `json.Unmarshal` into a Go `[]string`: an array of strings (null
elements read as `""`), or null read as the nil slice. -/
def unmarshalGoStringSlice : Json → Option (List String)
  | .arr xs => unmarshalGoStrings xs
  | .null => some []
  | _ => none

/-- Translation of `AudienceList.UnmarshalJSON`: first try the bare-string form,
wrapping the result in a one-element list; on failure fall back to the
array form. -/
def unmarshalAudienceList (data : Json) : Option (List String) :=
  match unmarshalGoString data with
  | some s => some [s]
  | none => unmarshalGoStringSlice data

/-! ### Theorems -/

/-- C7: for the empty resource string, `GetToken` fails with the
configuration error whose message is "resource cannot be empty", leaves
the cache untouched, and records no event at all — no cache read, no
producer invocation, no HTTP call. -/
theorem getToken_empty_resource (g : Granter) (c : TokenCache) (now : Int)
    (net : TokenHttpResult) :
    getToken g c now net "" = (.error .resourceEmpty, c, []) ∧
    GranterError.resourceEmpty.message = "resource cannot be empty" := by
  exact ⟨rfl, rfl⟩

/-- C10: when the cache holds a non-expired token for the resource, a
`GetToken` call returns it after only the cache read, for every
configuration — in particular with empty `ClientID`, `ClientSecret` and
`TenantURL` — because the configuration checks live inside the cache-miss
producer, which a hit never runs. -/
theorem getToken_cache_hit_skips_config (g : Granter) (c : TokenCache) (now : Int)
    (net : TokenHttpResult) (r jwt : String) (hr : r ≠ "")
    (hhit : readToken c r now = some jwt) :
    getToken g c now net r = (.ok jwt, c, [.cacheRead]) := by
  simp [getToken, hr, hhit]

/-- Witness for `getToken_cache_hit_skips_config`: a fully blank
configuration still serves the cached token. -/
theorem getToken_cache_hit_skips_config_witness :
    getToken ⟨"", "", "", 0⟩ (some [("r", ⟨"tok", 100⟩)]) 50 .transportError "r"
      = (.ok "tok", some [("r", ⟨"tok", 100⟩)], [.cacheRead]) :=
  getToken_cache_hit_skips_config _ _ _ _ _ _ (by decide) (by decide)

/-- C2, counterexample: `readToken` still returns an entry whose stored
adjusted expiration is exactly "now" (expiration 100 at now = 100), so a
cache read can return an entry whose adjusted expiration is at (though
not after) the current instant. -/
theorem readToken_hit_at_exact_expiry :
    readToken (some [("r", ⟨"tok", 100⟩)]) "r" 100 = some "tok" ∧
    cacheLookup (some [("r", ⟨"tok", 100⟩)]) "r" = some ⟨"tok", 100⟩ := by
  exact ⟨rfl, rfl⟩

/-- C2, amended: `readToken` reports not-found exactly when the key is
absent or its adjusted expiration is strictly before now — an entry
expiring exactly at now is still returned — while `readPublicKey` reports
not-found exactly when the key is absent or its expiration is at or
before now, as the claim states. -/
theorem cacheRead_expiry_semantics (c : TokenCache) (kc : KeyCache) (k : String)
    (now : Int) :
    (∀ jwt, readToken c k now = some jwt ↔
      ∃ e, cacheLookup c k = some e ∧ e.jwt = jwt ∧ now ≤ e.expiration) ∧
    (∀ pk, readPublicKey kc k now = some pk ↔
      ∃ e, keyCacheLookup kc k = some e ∧ e.key = pk ∧ now < e.expiration) := by
  constructor
  · intro jwt
    cases h : cacheLookup c k with
    | none => simp [readToken, h]
    | some e =>
      simp only [readToken, h]
      by_cases he : e.expiration ≥ now
      · simp [he]
      · simp [he]
  · intro pk
    cases h : keyCacheLookup kc k with
    | none => simp [readPublicKey, h]
    | some e =>
      simp only [readPublicKey, h]
      by_cases he : e.expiration > now
      · simp [he]
      · simp [he]

/-- Witness for `cacheRead_expiry_semantics` at a concrete cache, key and
instant. -/
theorem cacheRead_expiry_semantics_witness :
    readToken (some [("r", ⟨"tok", 100⟩)]) "r" 99 = some "tok" :=
  ((cacheRead_expiry_semantics (some [("r", ⟨"tok", 100⟩)]) none "r" 99).1 "tok").mpr
    ⟨⟨"tok", 100⟩, rfl, rfl, by decide⟩

/-- C1, counterexample: a 302 response — non-2xx — is accepted by both
fetch paths.  `GetToken` decodes its body and returns the token, and the
JWKS key resolution parses the key list, instead of failing with a
status error as the claim requires. -/
theorem nonTwoxx_accepted_302 :
    (getToken ⟨"id", "secret", "https://t.example.com", 60⟩ none 0
      (.response 302 (some ⟨"tok", "Bearer", 3600⟩)) "r").1 = .ok "tok" ∧
    (getKey ⟨"https://svc", "https://t.example.com", 60⟩ none 0
      (.response 302 (some [⟨"kid1", ["certA"]⟩])) (fun _ => some ⟨5⟩) "kid1").1
      = .ok ⟨5⟩ := by
  exact ⟨rfl, rfl⟩

/-- Helper: the JWKS scan never produces a status error; its errors are
the missing-chain, certificate-parse and missing-kid ones. -/
theorem resolveFromKeys_not_status (kid : String)
    (parseCert : String → Option RsaPublicKey) (keys : List JwksKey)
    (e : KeyError) (code : Int)
    (h : resolveFromKeys kid parseCert keys = .error e) :
    e ≠ .status code := by
  induction keys with
  | nil =>
    simp only [resolveFromKeys, Except.error.injEq] at h
    subst h
    simp
  | cons k rest ih =>
    by_cases hk : k.kid == kid
    · simp only [resolveFromKeys, hk, if_true] at h
      cases hx : k.x5c with
      | nil =>
        simp only [hx, Except.error.injEq] at h
        subst h
        simp
      | cons cert certs =>
        simp only [hx] at h
        cases hp : parseCert (pemWrap cert) with
        | none =>
          simp only [hp, Except.error.injEq] at h
          subst h
          simp
        | some pk => simp [hp] at h
    · simp only [resolveFromKeys, hk, if_false] at h
      exact ih h

/-- C1, amended: on a cache miss with a validly configured client, a
response fails with a status error carrying its status code exactly when
the code is below 200 or at least 400 — both for the token endpoint in
`GetToken` and for the JWKS endpoint in key resolution — so 3xx
responses are not rejected by the status check. -/
theorem status_check_range (g : Granter) (c : TokenCache) (now code : Int)
    (body : Option AccessTokenResponse) (jbody : Option (List JwksKey))
    (v : Verifier) (kc : KeyCache) (parseCert : String → Option RsaPublicKey)
    (r kid : String) (hr : r ≠ "") (hmiss : readToken c r now = none)
    (hid : g.clientID ≠ "") (hsec : g.clientSecret ≠ "") (hten : g.tenantURL ≠ "")
    (hkmiss : readPublicKey kc kid now = none) :
    ((getToken g c now (.response code body) r).1 = .error (.status code) ↔
      code < 200 ∨ 400 ≤ code) ∧
    ((getKey v kc now (.response code jbody) parseCert kid).1 = .error (.status code) ↔
      code < 200 ∨ 400 ≤ code) := by
  constructor
  · by_cases hs : statusRejected code
    · have hx : code < 200 ∨ 400 ≤ code := by simpa [statusRejected] using hs
      simp [getToken, hmiss, hr, hid, hsec, hten, hs, hx]
    · have hx : ¬(code < 200 ∨ 400 ≤ code) := by simpa [statusRejected] using hs
      cases body with
      | none => simp [getToken, hmiss, hr, hid, hsec, hten, hs, hx]
      | some b => simp [getToken, hmiss, hr, hid, hsec, hten, hs, hx]
  · by_cases hs : statusRejected code
    · have hx : code < 200 ∨ 400 ≤ code := by simpa [statusRejected] using hs
      simp [getKey, hkmiss, hs, hx]
    · have hx : ¬(code < 200 ∨ 400 ≤ code) := by simpa [statusRejected] using hs
      cases jbody with
      | none => simp [getKey, hkmiss, hs, hx]
      | some keys =>
        cases hres : resolveFromKeys kid parseCert keys with
        | error e =>
          simp [getKey, hkmiss, hs, hx, hres]
          exact resolveFromKeys_not_status kid parseCert keys e code hres
        | ok pk => simp [getKey, hkmiss, hs, hx, hres]

/-- Witness for `status_check_range`: a 500 response fails with the
status error carrying 500. -/
theorem status_check_range_witness :
    (getToken ⟨"id", "secret", "https://t.example.com", 60⟩ none 0
      (.response 500 none) "r").1 = .error (.status 500) :=
  ((status_check_range ⟨"id", "secret", "https://t.example.com", 60⟩ none 0 500
      none none ⟨"https://svc", "https://t.example.com", 60⟩ none (fun _ => none)
      "r" "kid1" (by decide) rfl (by decide) (by decide) (by decide) rfl).1).mpr
    (by decide)

/-- Helper: reading the key just written returns the stored token
exactly while its adjusted expiration has not passed. -/
theorem readToken_cacheInsert_self (c : TokenCache) (k jwt : String) (e now : Int) :
    readToken (cacheInsert c k ⟨jwt, e⟩) k now
      = if e ≥ now then some jwt else none := by
  simp [readToken, cacheLookup, cacheInsert]

/-- C3: a successful token response decoded as
`{access_token, token_type, expires_in}` is cached under the absolute
instant `now + expires_in` with the margin subtracted; with
`expires_in = 3600` and margin 60, a second call up to 3540 seconds later
is served from the cache with no producer run and no HTTP call, while a
call more than 3540 seconds later misses and performs exactly one HTTP
call. -/
theorem getToken_expiry_caching (g : Granter) (c : TokenCache) (t0 : Int)
    (r tok tt : String) (E : Int)
    (hr : r ≠ "") (hmiss : readToken c r t0 = none)
    (hid : g.clientID ≠ "") (hsec : g.clientSecret ≠ "") (hten : g.tenantURL ≠ "") :
    getToken g c t0 (.response 200 (some ⟨tok, tt, E⟩)) r
      = (.ok tok, writeToken g c r tok (t0 + E), [.cacheRead, .producerRun, .httpCall]) ∧
    cacheLookup (writeToken g c r tok (t0 + E)) r
      = some ⟨tok, t0 + E - g.expirationMargin⟩ ∧
    (g.expirationMargin = 60 → E = 3600 →
      ∀ (d : Int) (net2 : TokenHttpResult),
        (d ≤ 3540 →
          getToken g (writeToken g c r tok (t0 + E)) (t0 + d) net2 r
            = (.ok tok, writeToken g c r tok (t0 + E), [.cacheRead])) ∧
        (3540 < d →
          ((getToken g (writeToken g c r tok (t0 + E)) (t0 + d) net2 r).2.2).count
            .httpCall = 1)) := by
  refine ⟨?_, ?_, ?_⟩
  · simp [getToken, hmiss, hr, hid, hsec, hten, statusRejected]
  · simp [writeToken, cacheLookup, cacheInsert]
  · intro hm hE d net2
    have hread : readToken (writeToken g c r tok (t0 + E)) r (t0 + d)
        = if t0 + E - g.expirationMargin ≥ t0 + d then some tok else none := by
      simp [writeToken, readToken_cacheInsert_self]
    constructor
    · intro hd
      have hin : t0 + E - g.expirationMargin ≥ t0 + d := by omega
      simp [getToken, hr, hread, hin]
    · intro hd
      have hnone : readToken (writeToken g c r tok (t0 + E)) r (t0 + d) = none := by
        rw [hread]
        simp
        omega
      cases net2 with
      | transportError => simp [getToken, hr, hnone, hid, hsec, hten]
      | response code body =>
        by_cases hs : statusRejected code
        · simp [getToken, hr, hnone, hid, hsec, hten, hs]
        · cases body with
          | none => simp [getToken, hr, hnone, hid, hsec, hten, hs]
          | some b => simp [getToken, hr, hnone, hid, hsec, hten, hs]

/-- Witness for `getToken_expiry_caching`: after caching at time 0 with
`expires_in = 3600` and margin 60, the call at time 3540 is still a
cache hit. -/
theorem getToken_expiry_caching_witness :
    getToken ⟨"id", "secret", "https://t.example.com", 60⟩
      (writeToken ⟨"id", "secret", "https://t.example.com", 60⟩ none "r" "tok1"
        ((0 : Int) + 3600))
      ((0 : Int) + 3540) .transportError "r"
      = (.ok "tok1",
        writeToken ⟨"id", "secret", "https://t.example.com", 60⟩ none "r" "tok1"
          ((0 : Int) + 3600), [.cacheRead]) :=
  ((getToken_expiry_caching ⟨"id", "secret", "https://t.example.com", 60⟩ none 0
      "r" "tok1" "Bearer" 3600 (by decide) rfl (by decide) (by decide)
      (by decide)).2.2 rfl rfl 3540 .transportError).1 (by decide)

/-- Helper: a key-resolution call performs the key-cache read, followed
by at most the one coalesced JWKS call. -/
theorem getKey_trace (v : Verifier) (c : KeyCache) (now : Int)
    (net : JwksHttpResult) (parseCert : String → Option RsaPublicKey)
    (kid : String) :
    (getKey v c now net parseCert kid).2.2 = [.keyCacheRead] ∨
    (getKey v c now net parseCert kid).2.2 = [.keyCacheRead, .jwksCall] := by
  cases hr : readPublicKey c kid now with
  | some pk => simp [getKey, hr]
  | none =>
    cases net with
    | transportError => simp [getKey, hr]
    | response code body =>
      by_cases hs : statusRejected code
      · simp [getKey, hr, hs]
      · cases body with
        | none => simp [getKey, hr, hs]
        | some keys =>
          cases hres : resolveFromKeys kid parseCert keys with
          | error e => simp [getKey, hr, hs, hres]
          | ok pk => simp [getKey, hr, hs, hres]

/-- Helper: the key-lookup callback never records a signature check, and
when it succeeds its trace is the audience, issuer and kid checks
followed by the key-resolution events. -/
theorem keyFunc_trace (v : Verifier) (c : KeyCache) (now : Int)
    (net : JwksHttpResult) (parseCert : String → Option RsaPublicKey)
    (header : ParsedHeader) (claims : ParsedClaims) :
    (∀ pk, (keyFunc v c now net parseCert header claims).1 = .ok pk →
      (keyFunc v c now net parseCert header claims).2.2
          = [.audienceCheck, .issuerCheck, .kidCheck, .keyCacheRead] ∨
      (keyFunc v c now net parseCert header claims).2.2
          = [.audienceCheck, .issuerCheck, .kidCheck, .keyCacheRead, .jwksCall]) ∧
    VEvent.signatureCheck ∉ (keyFunc v c now net parseCert header claims).2.2 := by
  cases hva : verifyAudience v claims.audience with
  | some e => simp [keyFunc, hva]
  | none =>
    cases hic : issuerCheck v.tenantURL claims.issuer with
    | some e => simp [keyFunc, hva, hic]
    | none =>
      cases hkid : header.kid with
      | none => simp [keyFunc, hva, hic, hkid]
      | some kid =>
        have hevs := getKey_trace v c now net parseCert kid
        rcases hgk : getKey v c now net parseCert kid with ⟨r, c2, evs⟩
        rw [hgk] at hevs
        simp only at hevs
        cases r with
        | error e =>
          simp only [keyFunc, hva, hic, hkid, hgk]
          rcases hevs with h | h <;> simp [h]
        | ok pk =>
          simp only [keyFunc, hva, hic, hkid, hgk]
          rcases hevs with h | h <;> simp [h]

/-- C4: the key-lookup callback of `VerifyToken` checks audience, then
issuer, then kid presence, then key resolution, and the signature is
checked only after all of them: an audience exclusion yields the
claim-validation error after only the audience check — even when the
signature oracle would accept — an issuer mismatch yields the issuer
error with no key-cache read and no JWKS call, and whenever the
signature is checked at all the trace is the audience, issuer and kid
checks, the key-resolution events, and the signature check last. -/
theorem verifyToken_check_order (v : Verifier) (c : KeyCache) (now : Int)
    (net : JwksHttpResult) (parseCert : String → Option RsaPublicKey)
    (sigValid : ParsedJwt → RsaPublicKey → Bool) (tok : ParsedJwt) :
    ((∀ a ∈ tok.claims.audience, a ≠ v.resource) →
      verifyToken v c now net parseCert sigValid (some tok)
        = (.error (.missingAudience v.resource), c, [.audienceCheck])) ∧
    (v.resource ∈ tok.claims.audience →
     tok.claims.issuer ≠ expectedIssuer v.tenantURL →
      verifyToken v c now net parseCert sigValid (some tok)
        = (.error (.issuerMismatch tok.claims.issuer (expectedIssuer v.tenantURL)),
            c, [.audienceCheck, .issuerCheck])) ∧
    (VEvent.signatureCheck ∈ (verifyToken v c now net parseCert sigValid (some tok)).2.2 →
      ∃ kevs, (kevs = [VEvent.keyCacheRead] ∨ kevs = [.keyCacheRead, .jwksCall]) ∧
        (verifyToken v c now net parseCert sigValid (some tok)).2.2
          = [.audienceCheck, .issuerCheck, .kidCheck] ++ kevs ++ [.signatureCheck]) := by
  refine ⟨?_, ?_, ?_⟩
  · intro hexc
    have hva : verifyAudience v tok.claims.audience
        = some (.missingAudience v.resource) := by
      have : tok.claims.audience.any (· == v.resource) = false := by
        simp only [List.any_eq_false, beq_iff_eq]
        exact hexc
      simp [verifyAudience, this]
    simp [verifyToken, keyFunc, hva]
  · intro hmem hne
    have hva : verifyAudience v tok.claims.audience = none := by
      have : tok.claims.audience.any (· == v.resource) = true := by
        simp only [List.any_eq_true, beq_iff_eq]
        exact ⟨v.resource, hmem, rfl⟩
      simp [verifyAudience, this]
    have hic : issuerCheck v.tenantURL tok.claims.issuer
        = some (.issuerMismatch tok.claims.issuer (expectedIssuer v.tenantURL)) := by
      simp [issuerCheck, hne]
    simp [verifyToken, keyFunc, hva, hic]
  · intro hsig
    have htr := keyFunc_trace v c now net parseCert tok.header tok.claims
    rcases hkf : keyFunc v c now net parseCert tok.header tok.claims with ⟨r, c2, evs⟩
    rw [hkf] at htr
    simp only at htr
    cases r with
    | error e =>
      rw [verifyToken] at hsig
      simp only [hkf] at hsig
      exact absurd hsig htr.2
    | ok pk =>
      rcases htr.1 pk rfl with h | h
      · refine ⟨[VEvent.keyCacheRead], Or.inl rfl, ?_⟩
        by_cases hv : sigValid tok pk
        · simp [verifyToken, hkf, hv, h]
        · simp [verifyToken, hkf, hv, h]
      · refine ⟨[VEvent.keyCacheRead, VEvent.jwksCall], Or.inr rfl, ?_⟩
        by_cases hv : sigValid tok pk
        · simp [verifyToken, hkf, hv, h]
        · simp [verifyToken, hkf, hv, h]

/-- Witness for `verifyToken_check_order`: a token whose audience list
excludes the configured resource fails with the missing-audience error
after only the audience check, although the signature oracle accepts
everything. -/
theorem verifyToken_check_order_witness :
    verifyToken ⟨"https://svc", "https://t.example.com", 60⟩ none 0 .transportError
      (fun _ => none) (fun _ _ => true)
      (some ⟨"raw", ⟨some "kid1"⟩,
        ⟨"read:all", ["https://other"], "https://t.example.com/"⟩⟩)
      = (.error (.missingAudience "https://svc"), none, [.audienceCheck]) :=
  (verifyToken_check_order ⟨"https://svc", "https://t.example.com", 60⟩ none 0
    .transportError (fun _ => none) (fun _ _ => true)
    ⟨"raw", ⟨some "kid1"⟩,
      ⟨"read:all", ["https://other"], "https://t.example.com/"⟩⟩).1 (by decide)

/-- Helper: the expected issuer always ends in the appended slash, so it
is never the empty string. -/
theorem expectedIssuer_ne_empty (t : String) : expectedIssuer t ≠ "" := by
  intro h
  have h1 := congrArg String.length h
  rw [expectedIssuer, String.length_append] at h1
  simp at h1
  exact absurd h1.2 (by decide)

/-- C6: the issuer check succeeds exactly when the issuer claim equals
the tenant URL with all trailing slashes stripped and exactly one
appended; on mismatch it fails with the issuer-mismatch error carrying
both the actual and the expected value, and its message names both. -/
theorem issuerCheck_iff (tenantURL issuer : String) :
    (issuerCheck tenantURL issuer = none ↔ issuer = expectedIssuer tenantURL) ∧
    (issuer ≠ expectedIssuer tenantURL →
      issuerCheck tenantURL issuer
        = some (.issuerMismatch issuer (expectedIssuer tenantURL))) ∧
    (VerifierError.issuerMismatch issuer (expectedIssuer tenantURL)).message
      = "bad token: issuer is '" ++ issuer ++ "' when it should be '"
        ++ expectedIssuer tenantURL ++ "'" := by
  refine ⟨⟨?_, ?_⟩, ?_, rfl⟩
  · intro h
    by_cases he : issuer = expectedIssuer tenantURL
    · exact he
    · simp [issuerCheck, he] at h
  · intro he
    have hne : issuer ≠ "" := by
      rw [he]
      exact expectedIssuer_ne_empty tenantURL
    simp [issuerCheck, he, hne]
    exact expectedIssuer_ne_empty tenantURL
  · intro he
    simp [issuerCheck, he]

/-- Witness for `issuerCheck_iff`: a tenant URL with two trailing
slashes expects the issuer with exactly one, and a differing issuer is
rejected with the error carrying both values. -/
theorem issuerCheck_iff_witness :
    issuerCheck "https://t.example.com//" "https://evil.example.com/"
      = some (.issuerMismatch "https://evil.example.com/"
          "https://t.example.com/") := by
  have h := (issuerCheck_iff "https://t.example.com//"
    "https://evil.example.com/").2.1 (by decide)
  exact h.trans (by decide)

/-- C8: scanning a decoded JWKS key list for a kid fails with the error
naming that kid (message included) when no entry matches, fails with the
certificate-chain error when the first matching entry has an empty x5c
chain, and succeeds only by parsing the PEM-wrapped first certificate of
the first matching entry. -/
theorem resolveFromKeys_spec (kid : String)
    (parseCert : String → Option RsaPublicKey) (keys : List JwksKey) :
    ((∀ k ∈ keys, k.kid ≠ kid) →
      resolveFromKeys kid parseCert keys = .error (.noKeyForKid kid)) ∧
    (∀ k, keys.find? (fun e => e.kid == kid) = some k → k.x5c = [] →
      resolveFromKeys kid parseCert keys = .error .missingCertChain) ∧
    (∀ pk, resolveFromKeys kid parseCert keys = .ok pk →
      ∃ k cert rest, keys.find? (fun e => e.kid == kid) = some k ∧
        k.x5c = cert :: rest ∧ parseCert (pemWrap cert) = some pk) ∧
    (KeyError.noKeyForKid kid).message = "no key for kid: " ++ kid := by
  refine ⟨?_, ?_, ?_, rfl⟩
  · intro hall
    induction keys with
    | nil => rfl
    | cons hd rest ih =>
      have hk : (hd.kid == kid) = false := by
        simpa using hall hd (List.mem_cons_self hd rest)
      simp only [resolveFromKeys, hk, Bool.false_eq_true, if_false]
      exact ih fun x hx => hall x (List.mem_cons_of_mem hd hx)
  · intro k hfind hx5c
    induction keys with
    | nil => simp at hfind
    | cons hd rest ih =>
      by_cases hk : (hd.kid == kid) = true
      · rw [List.find?_cons_of_pos (p := fun e => e.kid == kid) rest hk] at hfind
        injection hfind with hk2
        subst hk2
        simp [resolveFromKeys, hk, hx5c]
      · rw [List.find?_cons_of_neg (p := fun e => e.kid == kid) rest
          (by simpa using hk)] at hfind
        have hk0 : (hd.kid == kid) = false := by simpa using hk
        simp only [resolveFromKeys, hk0, Bool.false_eq_true, if_false]
        exact ih hfind
  · intro pk hok
    induction keys with
    | nil => simp [resolveFromKeys] at hok
    | cons hd rest ih =>
      by_cases hk : (hd.kid == kid) = true
      · cases hx : hd.x5c with
        | nil => simp [resolveFromKeys, hk, hx] at hok
        | cons cert certs =>
          simp only [resolveFromKeys, hk, if_true, hx] at hok
          cases hp : parseCert (pemWrap cert) with
          | none => simp [hp] at hok
          | some pk2 =>
            simp only [hp, Except.ok.injEq] at hok
            subst hok
            exact ⟨hd, cert, certs,
              List.find?_cons_of_pos (p := fun e => e.kid == kid) rest hk, hx, hp⟩
      · have hk0 : (hd.kid == kid) = false := by simpa using hk
        simp only [resolveFromKeys, hk0, Bool.false_eq_true, if_false] at hok
        obtain ⟨k, cert, rest2, hfind, hx, hp⟩ := ih hok
        refine ⟨k, cert, rest2, ?_, hx, hp⟩
        rw [List.find?_cons_of_neg (p := fun e => e.kid == kid) rest
          (by simpa using hk)]
        exact hfind

/-- Witness for `resolveFromKeys_spec`: a key list with no matching
entry fails with the error naming the requested kid. -/
theorem resolveFromKeys_spec_witness :
    resolveFromKeys "missing-kid" (fun _ => some ⟨1⟩) [⟨"other-kid", ["certA"]⟩]
      = .error (.noKeyForKid "missing-kid") :=
  (resolveFromKeys_spec "missing-kid" (fun _ => some ⟨1⟩)
    [⟨"other-kid", ["certA"]⟩]).1 (by decide)

/-- Helper: decoding a JSON array built from plain strings recovers
exactly those strings. -/
theorem unmarshalGoStrings_map_str (l : List String) :
    unmarshalGoStrings (l.map Json.str) = some l := by
  induction l with
  | nil => rfl
  | cons a t ih => simp [unmarshalGoStrings, unmarshalGoString, ih]

/-- C5: encoding an audience list of exactly one element produces a bare
JSON string; decoding a bare JSON string produces the one-element list;
and every list of two or more elements encodes as a JSON array of
strings and decodes back to itself. -/
theorem audienceList_json_roundtrip :
    (∀ a : String, marshalAudienceList [a] = .str a) ∧
    (∀ s : String, unmarshalAudienceList (.str s) = some [s]) ∧
    (∀ al : List String, 2 ≤ al.length →
      marshalAudienceList al = .arr (al.map .str) ∧
      unmarshalAudienceList (marshalAudienceList al) = some al) := by
  refine ⟨fun a => rfl, fun s => rfl, ?_⟩
  intro al hlen
  match al, hlen with
  | a :: b :: t, _ =>
    have hm : marshalAudienceList (a :: b :: t)
        = .arr ((a :: b :: t).map .str) := rfl
    refine ⟨hm, ?_⟩
    rw [hm]
    simp only [unmarshalAudienceList, unmarshalGoString, unmarshalGoStringSlice]
    exact unmarshalGoStrings_map_str (a :: b :: t)

/-- Witness for `audienceList_json_roundtrip`: the two-element list
round-trips through its JSON array form. -/
theorem audienceList_json_roundtrip_witness :
    unmarshalAudienceList (marshalAudienceList ["a", "b"]) = some ["a", "b"] :=
  (audienceList_json_roundtrip.2.2 ["a", "b"] (by decide)).2

end Auth
